import Mathlib

/-!
Shallow embedding of `use-session-storage-state` (src/src/useSessionStorageState.ts).

Modelling conventions:
- JavaScript `undefined` values of type `T | undefined` are modelled as `Option α`
  with `none` standing for `undefined`.
- `sessionStorage` is an association list `List (String × String)`; the module-level
  `inMemoryData` map is `List (String × Option α)`.
- Functions that may throw (`parse`, `stringify`) return `Except Unit _`; the
  `try`/`catch` and `goodTry` wrappers in the source become `match`es on that result.
- The environment's possible storage failures ("maximum quota is exceeded",
  private mode, cookies disabled — the reasons listed in the source comments) are
  modelled by three flags on the process state saying whether
  `sessionStorage.getItem` / `setItem` / `removeItem` currently throw.
- React's `useSyncExternalStore` is external: a cell (one hook call site) is its
  `storageItem` ref, and a read is one invocation of the `getSnapshot` closure,
  which returns the value and the updated ref and process state.
-/

namespace UseSessionStorage

/-- Association-list lookup, modelling `Map.get` / `sessionStorage.getItem`. -/
def alookup {β : Type} : List (String × β) → String → Option β
  | [], _ => none
  | p :: l, k => if p.1 = k then some p.2 else alookup l k

/-- Association-list delete, modelling `Map.delete` / `sessionStorage.removeItem`. -/
def aerase {β : Type} : List (String × β) → String → List (String × β)
  | [], _ => []
  | p :: l, k => if p.1 = k then aerase l k else p :: aerase l k

/-- Association-list insert/overwrite, modelling `Map.set` / `sessionStorage.setItem`. -/
def ainsert {β : Type} (l : List (String × β)) (k : String) (v : β) : List (String × β) :=
  (k, v) :: aerase l k

/-- Serializer plus key and default value for one hook call site
(`key`, `defaultValue`, `options.serializer` of `useSessionStorageState`). -/
structure Config (α : Type) where
  key : String
  defaultValue : Option α
  stringify : Option α → Except Unit String
  parse : String → Except Unit (Option α)

/-- Process-wide mutable state: the `sessionStorage` contents, the module-level
`inMemoryData` map, and flags saying which storage operations currently throw. -/
structure ProcState (α : Type) where
  store : List (String × String)
  inMemoryData : List (String × Option α)
  getThrows : Bool
  setThrows : Bool
  removeThrows : Bool

/-- The `storageItem` ref of one hook call site:
`{ string: string | null; parsed: T | undefined }`. -/
structure StorageItem (α : Type) where
  string : Option String
  parsed : Option α

/-- The initial `useRef` value: `{ string: null, parsed: undefined }`. -/
def freshItem (α : Type) : StorageItem α := ⟨none, none⟩

/-- Result of one `getSnapshot` invocation: the returned value, the updated
`storageItem` ref, and the (possibly seeded) process state. -/
structure ReadResult (α : Type) where
  value : Option α
  item : StorageItem α
  state : ProcState α

/-- `goodTry(() => sessionStorage.getItem(key)) ?? null`. -/
def sget {α : Type} (st : ProcState α) (k : String) : Option String :=
  if st.getThrows then none else alookup st.store k

/-- The `getSnapshot` closure passed to `useSyncExternalStore`
(src/src/useSessionStorageState.ts lines 85–125), including the
default-value seeding block. -/
def getSnapshot {α : Type} (cfg : Config α) (st : ProcState α) (item : StorageItem α) :
    ReadResult α :=
  let string := sget st cfg.key
  let parsed :=
    match alookup st.inMemoryData cfg.key with
    | some v => v
    | none =>
      if string ≠ item.string then
        match string with
        | none => cfg.defaultValue
        | some s =>
          match cfg.parse s with
          | .ok v => v
          | .error _ => cfg.defaultValue
      else item.parsed
  let item1 : StorageItem α := ⟨string, parsed⟩
  if string = none ∧ cfg.defaultValue.isSome = true then
    match cfg.stringify cfg.defaultValue with
    | .error _ => ⟨item1.parsed, item1, st⟩
    | .ok s =>
      if st.setThrows then ⟨item1.parsed, item1, st⟩
      else ⟨cfg.defaultValue, ⟨some s, cfg.defaultValue⟩,
            { st with store := ainsert st.store cfg.key s }⟩
  else ⟨item1.parsed, item1, st⟩

/-- `SetStateAction<T | undefined>`: either a plain value or an updater function. -/
inductive Action (α : Type) where
  | value : Option α → Action α
  | updater : (Option α → Option α) → Action α

/-- The `setState` callback (src/src/useSessionStorageState.ts lines 130–152).
It resolves updater functions against the cell's cached `parsed` value, tries to
write through, and on any throw (from `stringify` or `setItem`) stores the
resolved value in `inMemoryData`; it never raises (the model is total). -/
def setState {α : Type} (cfg : Config α) (st : ProcState α) (item : StorageItem α)
    (a : Action α) : ProcState α :=
  let v := match a with
    | .value v => v
    | .updater f => f item.parsed
  match cfg.stringify v with
  | .error _ => { st with inMemoryData := ainsert st.inMemoryData cfg.key v }
  | .ok s =>
    if st.setThrows then { st with inMemoryData := ainsert st.inMemoryData cfg.key v }
    else { st with store := ainsert st.store cfg.key s,
                   inMemoryData := aerase st.inMemoryData cfg.key }

/-- The `removeItem` closure (src/src/useSessionStorageState.ts lines 179–185):
best-effort `sessionStorage.removeItem` inside `goodTry`, then
`inMemoryData.delete(key)`. -/
def removeItemOp {α : Type} (st : ProcState α) (k : String) : ProcState α :=
  let st1 := if st.removeThrows then st else { st with store := aerase st.store k }
  { st1 with inMemoryData := aerase st1.inMemoryData k }

/-- `isPersistent: value === defaultValue || !inMemoryData.has(key)`.
JavaScript `===` is modelled as decidable equality of model values. -/
def isPersistent {α : Type} [DecidableEq α] (value : Option α) (cfg : Config α)
    (st : ProcState α) : Bool :=
  decide (value = cfg.defaultValue) || !(alookup st.inMemoryData cfg.key).isSome

/-! ### Subscription hub

The module-level `callbacks = new Set<(key: string) => void>()` and
`triggerCallbacks` (src/src/useSessionStorageState.ts lines 192–198).
A JavaScript `Set` of closures is modelled as an insertion-ordered duplicate-free
`List Nat` of closure identities; `keyOf` assigns to each registered `onChange`
closure the `key` it captured. -/

/-- `Set.prototype.add`: appends the element if it is not already present. -/
def setAdd (reg : List Nat) (c : Nat) : List Nat :=
  if c ∈ reg then reg else reg ++ [c]

/-- `Set.prototype.delete`, as used by the unsubscribe closure returned from the
`useSyncExternalStore` subscribe function: `callbacks.delete(onChange)`. -/
def setDelete (reg : List Nat) (c : Nat) : List Nat :=
  reg.erase c

/-- One step of `for (const callback of [...callbacks]) callback(key)`:
walks the spread-out snapshot list, applying each callback's arbitrary effect on
the live registry (a callback may add or remove subscriptions), and records the
invocation order. Returns the final registry and the list of invoked callbacks. -/
def broadcastAux (effect : Nat → List Nat → List Nat) :
    List Nat → List Nat → List Nat × List Nat
  | [], reg => (reg, [])
  | c :: rest, reg =>
    let reg' := effect c reg
    let r := broadcastAux effect rest reg'
    (r.1, c :: r.2)

/-- `triggerCallbacks(key)`: takes the snapshot `[...callbacks]` of the registry
at publish time and invokes every element of that snapshot in order, each
invocation receiving the published key and possibly mutating the registry. -/
def triggerCallbacks (effect : Nat → List Nat → List Nat) (reg : List Nat) :
    List Nat × List Nat :=
  broadcastAux effect reg reg

/-- The body of the `onChange` closure registered by subscribe:
`if (key === sessionKey) { onStoreChange() }` — returns whether the cell that
registered under `cellKey` forwards an invalidation for a publish of `sessionKey`. -/
def onChange (cellKey sessionKey : String) : Bool :=
  cellKey == sessionKey

/-- The callbacks among an invocation trace whose cells get invalidated when
`k` is published: those whose captured key equals the published key. -/
def invalidatedCells (keyOf : Nat → String) (k : String) (trace : List Nat) : List Nat :=
  trace.filter (fun c => onChange (keyOf c) k)

/-! ### Default serializer

`parseJSON` (src/src/useSessionStorageState.ts lines 200–204) wraps the
platform's `JSON.parse`. The platform parser is external to the repository, so
it is a parameter; values it can produce are modelled by `JSVal`, with the
enclosing `Option` as usual standing for `undefined`. -/

/-- A JavaScript value produced by the default serializer's decoder. -/
inductive JSVal : Type where
  | str : String → JSVal
  | num : Int → JSVal
  | bool : Bool → JSVal
  | null : JSVal
deriving DecidableEq

/-- The raw string that ends up in the backing store when the default
serializer stringifies `undefined`: `JSON.stringify(undefined)` evaluates to
`undefined`, which `sessionStorage.setItem` coerces to the four-character-plus
word `"undefined"`. -/
def stringifiedUndefined : String := "undefined"

/-- `parseJSON`: a wrapper for `JSON.parse()` that special-cases the string
`"undefined"`, returning the value `undefined` instead of invoking the general
decoder. -/
def parseJSON (jsonParse : String → Except Unit (Option JSVal)) (value : String) :
    Except Unit (Option JSVal) :=
  if value = "undefined" then .ok none else jsonParse value

/-! ### Concrete adapters and states for witnesses and counterexamples -/

/-- A concrete configured serializer encoder over `α := String` used to
instantiate the general theorems (a finite table, so every trace evaluates). -/
def tStringify : Option String → Except Unit String
  | none => .ok "undefined"
  | some "v" => .ok "Sv"
  | some "w" => .ok "Sw"
  | some "d" => .ok "Sd"
  | some _ => .error ()

/-- The matching concrete decoder; it throws on anything outside the table. -/
def tParse : String → Except Unit (Option String)
  | "undefined" => .ok none
  | "Sv" => .ok (some "v")
  | "Sw" => .ok (some "w")
  | "Sd" => .ok (some "d")
  | _ => .error ()

/-- A call site for key `"k"` with default value `"d"`. -/
def cfgD : Config String := ⟨"k", some "d", tStringify, tParse⟩

/-- A call site for key `"k"` with no default value (`undefined`). -/
def cfgNone : Config String := ⟨"k", none, tStringify, tParse⟩

/-- A call site whose encoder throws on the value `"v"` (e.g. a circular
structure that `JSON.stringify` rejects) but serializes the default fine. -/
def cfgThrowV : Config String :=
  ⟨"k", some "d", fun v => if v = some "v" then .error () else tStringify v, tParse⟩

/-- Healthy initial process state: empty store, empty fallback map, no failures. -/
def st0 : ProcState String := ⟨[], [], false, false, false⟩

/-- `st0` while `sessionStorage.setItem` throws (e.g. quota exceeded). -/
def stThrow : ProcState String := { st0 with setThrows := true }

/-- Trace: a write that fails while the store is empty, leaving a fallback entry. -/
def c1stA : ProcState String :=
  setState cfgD stThrow (freshItem String) (.value (some "v"))

/-- Trace: the same process after the write path recovers. -/
def c1stB : ProcState String := { c1stA with setThrows := false }

/-- Trace: the next read, taken while the fallback entry for `"k"` still exists. -/
def c1read : ReadResult String := getSnapshot cfgD c1stB (freshItem String)

/-- Trace: `removeItem()` after that read. -/
def c1stC : ProcState String := removeItemOp c1read.state "k"

/-- Trace: the read after `removeItem()`. -/
def c1read2 : ReadResult String := getSnapshot cfgD c1stC c1read.item

/-- Trace: a fresh cell's first read with default `"d"` (seeds the store). -/
def c2read1 : ReadResult String := getSnapshot cfgD st0 (freshItem String)

/-- Trace: `removeItem()` after the cell was created. -/
def c2stR : ProcState String := removeItemOp c2read1.state "k"

/-- Trace: the cell's next read after `removeItem()`. -/
def c2read2 : ReadResult String := getSnapshot cfgD c2stR c2read1.item

/-- A process state whose store already holds a raw item for `"k"`. -/
def c2wst : ProcState String := ⟨[("k", "Sv")], [], false, false, false⟩

/-- A cell that has cached that raw item. -/
def c2witem : StorageItem String := ⟨some "Sv", some "v"⟩

/-- Trace: `setValue("v")` while `setItem` throws. -/
def c3stB : ProcState String := setState cfgD stThrow (freshItem String) (.value (some "v"))

/-- Trace: the read after the failed write. -/
def c3read : ReadResult String := getSnapshot cfgD c3stB (freshItem String)

/-- Trace: a later `setValue("w")` once the write path works again. -/
def c3stC : ProcState String :=
  setState cfgD { c3read.state with setThrows := false } c3read.item (.value (some "w"))

/-- Trace: `setValue("v")` on a fresh process with no default value. -/
def c4st1 : ProcState String := setState cfgNone st0 (freshItem String) (.value (some "v"))

/-- Trace: the read caching `{ string: "Sv", parsed: "v" }`. -/
def c4read1 : ReadResult String := getSnapshot cfgNone c4st1 (freshItem String)

/-- Trace: `setValue("w")` while `setItem` throws — fallback gets `"w"`. -/
def c4st2 : ProcState String :=
  setState cfgNone { c4read1.state with setThrows := true } c4read1.item (.value (some "w"))

/-- Trace: the read that caches `{ string: "Sv", parsed: "w" }` from the fallback. -/
def c4read2 : ReadResult String := getSnapshot cfgNone c4st2 c4read1.item

/-- Trace: `setValue("v")` again once the write path recovers; the stored raw
string becomes `"Sv"`, identical to the cached one. -/
def c4st3 : ProcState String :=
  setState cfgNone { c4read2.state with setThrows := false } c4read2.item (.value (some "v"))

/-- Trace: the final read of the same cell. -/
def c4read3 : ReadResult String := getSnapshot cfgNone c4st3 c4read2.item

/-- A process state whose store holds a string the decoder cannot parse. -/
def c6st : ProcState String := ⟨[("k", "!!")], [], false, false, false⟩

/-- Trace: `setValue("v")` where `stringify` itself throws on `"v"`. -/
def c8st : ProcState String := setState cfgThrowV st0 (freshItem String) (.value (some "v"))

/-- Trace: the read of the same key right after that failed serialization. -/
def c8read : ReadResult String := getSnapshot cfgThrowV c8st (freshItem String)

/-! ## Supporting lemmas -/

theorem alookup_aerase_self {β : Type} (l : List (String × β)) (k : String) :
    alookup (aerase l k) k = none := by
  induction l with
  | nil => rfl
  | cons p l ih =>
    by_cases h : p.1 = k
    · simpa [aerase, h] using ih
    · simpa [aerase, alookup, h] using ih

theorem alookup_aerase_ne {β : Type} (l : List (String × β)) (k k' : String)
    (h : k' ≠ k) : alookup (aerase l k) k' = alookup l k' := by
  induction l with
  | nil => rfl
  | cons p l ih =>
    by_cases hp : p.1 = k
    · simpa [aerase, alookup, hp, Ne.symm h] using ih
    · by_cases hq : p.1 = k'
      · simp [aerase, alookup, hp, hq, h]
      · simpa [aerase, alookup, hp, hq] using ih

theorem alookup_ainsert_self {β : Type} (l : List (String × β)) (k : String) (v : β) :
    alookup (ainsert l k v) k = some v := by
  simp [alookup, ainsert]

theorem alookup_ainsert_ne {β : Type} (l : List (String × β)) (k k' : String) (v : β)
    (h : k' ≠ k) : alookup (ainsert l k v) k' = alookup l k' := by
  simp only [alookup, ainsert, if_neg (Ne.symm h)]
  exact alookup_aerase_ne l k k' h

theorem setAdd_nodup (reg : List Nat) (c : Nat) (h : reg.Nodup) : (setAdd reg c).Nodup := by
  unfold setAdd
  split
  · exact h
  · next hc => simpa using List.Nodup.append h (by simp) (by simpa using hc)

theorem setDelete_nodup (reg : List Nat) (c : Nat) (h : reg.Nodup) :
    (setDelete reg c).Nodup :=
  h.erase c

theorem broadcastAux_trace (effect : Nat → List Nat → List Nat) (l reg : List Nat) :
    (broadcastAux effect l reg).2 = l := by
  induction l generalizing reg with
  | nil => rfl
  | cons c rest ih => simp [broadcastAux, ih]

theorem getSnapshot_mem_setThrows {α : Type} (cfg : Config α) (st : ProcState α)
    (item : StorageItem α) (v : Option α)
    (hmem : alookup st.inMemoryData cfg.key = some v) (hset : st.setThrows = true) :
    (getSnapshot cfg st item).value = v ∧ (getSnapshot cfg st item).state = st := by
  unfold getSnapshot
  simp only [hmem]
  split
  · cases h : cfg.stringify cfg.defaultValue <;> simp [h, hset]
  · simp

theorem getSnapshot_mem_any {α : Type} (cfg : Config α) (st : ProcState α)
    (item : StorageItem α) (v : Option α)
    (hmem : alookup st.inMemoryData cfg.key = some v) :
    (getSnapshot cfg st item).value = v ∨
    (sget st cfg.key = none ∧ cfg.defaultValue.isSome = true ∧
     (getSnapshot cfg st item).value = cfg.defaultValue) := by
  unfold getSnapshot
  simp only [hmem]
  split
  · next hcond =>
    cases h : cfg.stringify cfg.defaultValue with
    | error e => exact Or.inl (by simp [h])
    | ok s =>
      by_cases hb : st.setThrows
      · exact Or.inl (by simp [h, hb])
      · exact Or.inr ⟨hcond.1, hcond.2, by simp [h, hb]⟩
  · exact Or.inl (by simp)

theorem setState_fallback_of_throw {α : Type} (cfg : Config α) (st : ProcState α)
    (item : StorageItem α) (v : Option α) (hset : st.setThrows = true) :
    (setState cfg st item (.value v)).inMemoryData = ainsert st.inMemoryData cfg.key v ∧
    (setState cfg st item (.value v)).store = st.store ∧
    (setState cfg st item (.value v)).setThrows = true ∧
    (setState cfg st item (.value v)).getThrows = st.getThrows := by
  unfold setState
  cases h : cfg.stringify v <;> simp [h, hset]

/-! ## Claims -/

/-- C1 (counterexample): the claim "a seeding write happens only when no
in-memory fallback entry exists, and at most once per key per process lifetime"
is false. In this concrete trace, a seeding write happens while `inMemoryData`
holds an entry for the key (conjuncts 1–3: fallback present, store empty before
the read, store seeded after it), and after `removeItem()` the next read
performs a second seeding write in the same process lifetime (conjuncts 4–5). -/
theorem seeding_conditions_cex :
    alookup c1stB.inMemoryData "k" = some (some "v") ∧
    alookup c1stB.store "k" = none ∧
    alookup c1read.state.store "k" = some "Sd" ∧
    alookup c1stC.store "k" = none ∧
    alookup c1read2.state.store "k" = some "Sd" := by
  decide

/-- C1 (amended): a read changes the raw item of its key as follows — a
pre-existing raw item is always left unchanged (seeding never overwrites), and
when no raw item exists a seeding write happens exactly if the default value is
not `undefined`, `setItem` does not throw, and the default serializes; the
in-memory fallback map is not consulted, and the write can recur whenever the
raw item disappears again (e.g. after `removeItem`). Stated for an environment
where `getItem` does not throw. -/
theorem seeding_characterization {α : Type} (cfg : Config α) (st : ProcState α)
    (item : StorageItem α) (hget : st.getThrows = false) :
    alookup (getSnapshot cfg st item).state.store cfg.key =
      (match alookup st.store cfg.key, st.setThrows, cfg.defaultValue.isSome,
             cfg.stringify cfg.defaultValue with
       | some x, _, _, _ => some x
       | none, false, true, .ok s => some s
       | none, _, _, _ => none) := by
  cases hs : alookup st.store cfg.key with
  | some x =>
    unfold getSnapshot
    simp [sget, hget, hs]
  | none =>
    cases hd : cfg.defaultValue.isSome with
    | false =>
      unfold getSnapshot
      cases hb : st.setThrows <;> simp [sget, hget, hs, hd]
    | true =>
      cases hb : st.setThrows with
      | true =>
        unfold getSnapshot
        cases hstr : cfg.stringify cfg.defaultValue <;> simp [sget, hget, hs, hd, hb, hstr]
      | false =>
        unfold getSnapshot
        cases hstr : cfg.stringify cfg.defaultValue <;>
          simp [sget, hget, hs, hd, hb, hstr, alookup_ainsert_self]

/-- Witness for the amended C1, at the fresh process state. -/
theorem seeding_characterization_witness :
    st0.getThrows = false ∧
    alookup (getSnapshot cfgD st0 (freshItem String)).state.store cfgD.key =
      (match alookup st0.store cfgD.key, st0.setThrows, cfgD.defaultValue.isSome,
             cfgD.stringify cfgD.defaultValue with
       | some x, _, _, _ => some x
       | none, false, true, .ok s => some s
       | none, _, _, _ => none) :=
  ⟨rfl, seeding_characterization cfgD st0 (freshItem String) rfl⟩

/-- C2 (counterexample): the claim's scenario "after `removeItem()`, a read
returns the default and the store has no entry for the key" is false in its
second half: in this trace the read after `removeItem()` does return the
default, but that very read re-seeds the store, which afterwards again holds
the serialized default rather than no entry. -/
theorem remove_resets_cex :
    c2read2.value = some "d" ∧
    ¬ alookup c2read2.state.store "k" = none ∧
    alookup c2read2.state.store "k" = some "Sd" := by
  decide

/-- C2 (amended): immediately after `removeItem()` the backing store holds no
raw item for the key, and (when storage operations succeed, the default value
is defined, serializes, and parses back to itself) every cell observes the
default value on its next read; but if the default is not `undefined`, the
first such read re-seeds the store, which afterwards holds the serialized
default, and later cells read the default back from that seeded item. -/
theorem remove_resets_amended {α : Type} (cfg : Config α) (st : ProcState α)
    (item item2 : StorageItem α) (s : String)
    (hget : st.getThrows = false) (hset : st.setThrows = false)
    (hrem : st.removeThrows = false) (hd : cfg.defaultValue.isSome = true)
    (hstr : cfg.stringify cfg.defaultValue = .ok s)
    (hparse : cfg.parse s = .ok cfg.defaultValue)
    (hitem2 : item2.string ≠ some s ∨ item2.parsed = cfg.defaultValue) :
    alookup (removeItemOp st cfg.key).store cfg.key = none ∧
    (getSnapshot cfg (removeItemOp st cfg.key) item).value = cfg.defaultValue ∧
    alookup (getSnapshot cfg (removeItemOp st cfg.key) item).state.store cfg.key = some s ∧
    (getSnapshot cfg (getSnapshot cfg (removeItemOp st cfg.key) item).state item2).value =
      cfg.defaultValue := by
  have hR : removeItemOp st cfg.key =
      { st with store := aerase st.store cfg.key,
                inMemoryData := aerase st.inMemoryData cfg.key } := by
    unfold removeItemOp
    simp [hrem]
  have h2 : getSnapshot cfg (removeItemOp st cfg.key) item =
      ⟨cfg.defaultValue, ⟨some s, cfg.defaultValue⟩,
       { st with store := ainsert (aerase st.store cfg.key) cfg.key s,
                 inMemoryData := aerase st.inMemoryData cfg.key }⟩ := by
    rw [hR]
    unfold getSnapshot
    simp [sget, hget, alookup_aerase_self, hd, hstr, hset]
  refine ⟨?_, ?_, ?_, ?_⟩
  · rw [hR]
    exact alookup_aerase_self _ _
  · rw [h2]
  · rw [h2]
    exact alookup_ainsert_self _ _ _
  · rw [h2]
    unfold getSnapshot
    have hsg : sget ({ st with store := ainsert (aerase st.store cfg.key) cfg.key s,
                               inMemoryData := aerase st.inMemoryData cfg.key }) cfg.key
        = some s := by
      simp [sget, hget, alookup_ainsert_self]
    simp only [hsg, alookup_aerase_self]
    rcases hitem2 with h | h
    · simp [Ne.symm h, hparse]
    · by_cases h2b : (some s : Option String) = item2.string
      · simp [← h2b, h]
      · simp [h2b, hparse]

/-- Witness for the amended C2: store initially holds `"Sv"` for `"k"`, a cell
has it cached; after `removeItem()` the raw item is gone, the cell's next read
returns the default `"d"`, the store then holds `"Sd"`, and a fresh cell also
reads `"d"`. -/
theorem remove_resets_amended_witness :
    c2wst.getThrows = false ∧ c2wst.setThrows = false ∧ c2wst.removeThrows = false ∧
    cfgD.defaultValue.isSome = true ∧
    cfgD.stringify cfgD.defaultValue = .ok "Sd" ∧
    cfgD.parse "Sd" = .ok cfgD.defaultValue ∧
    ((freshItem String).string ≠ some "Sd" ∨ (freshItem String).parsed = cfgD.defaultValue) ∧
    (alookup (removeItemOp c2wst cfgD.key).store cfgD.key = none ∧
     (getSnapshot cfgD (removeItemOp c2wst cfgD.key) c2witem).value = cfgD.defaultValue ∧
     alookup (getSnapshot cfgD (removeItemOp c2wst cfgD.key) c2witem).state.store cfgD.key
       = some "Sd" ∧
     (getSnapshot cfgD (getSnapshot cfgD (removeItemOp c2wst cfgD.key) c2witem).state
       (freshItem String)).value = cfgD.defaultValue) :=
  ⟨rfl, rfl, rfl, rfl, rfl, rfl, Or.inl (by decide),
   remove_resets_amended cfgD c2wst c2witem (freshItem String) "Sd"
     rfl rfl rfl rfl rfl rfl (Or.inl (by decide))⟩

/-- C3: when the write path fails (`setItem` throws), `setValue(v)` stores `v`
in the in-memory fallback, a subsequent read from the same cell still yields
`v`, and `isPersistent` becomes false (for `v` different from the default, as
the claim's own characterization requires); once a write to the key succeeds,
the fallback entry is cleared and `isPersistent` returns to true. Moreover
`isPersistent` is true iff the current value equals the default value or no
fallback entry exists for the key. -/
theorem fallback_on_write_failure {α : Type} [DecidableEq α] (cfg : Config α)
    (st : ProcState α) (item : StorageItem α) (v w : Option α) (sw : String)
    (u : Option α) (stX : ProcState α)
    (hset : st.setThrows = true) (hv : v ≠ cfg.defaultValue)
    (hw : cfg.stringify w = .ok sw) :
    alookup (setState cfg st item (.value v)).inMemoryData cfg.key = some v ∧
    (getSnapshot cfg (setState cfg st item (.value v)) item).value = v ∧
    isPersistent (getSnapshot cfg (setState cfg st item (.value v)) item).value cfg
      (setState cfg st item (.value v)) = false ∧
    alookup (setState cfg
        { (getSnapshot cfg (setState cfg st item (.value v)) item).state with setThrows := false }
        (getSnapshot cfg (setState cfg st item (.value v)) item).item
        (.value w)).inMemoryData cfg.key = none ∧
    isPersistent u cfg (setState cfg
        { (getSnapshot cfg (setState cfg st item (.value v)) item).state with setThrows := false }
        (getSnapshot cfg (setState cfg st item (.value v)) item).item
        (.value w)) = true ∧
    (isPersistent u cfg stX = true ↔
      (u = cfg.defaultValue ∨ (alookup stX.inMemoryData cfg.key).isSome = false)) := by
  have hB := setState_fallback_of_throw cfg st item v hset
  have hmemB : alookup (setState cfg st item (.value v)).inMemoryData cfg.key = some v := by
    rw [hB.1]; exact alookup_ainsert_self _ _ _
  have hr := getSnapshot_mem_setThrows cfg (setState cfg st item (.value v)) item v hmemB hB.2.2.1
  have hC : (setState cfg
      { (getSnapshot cfg (setState cfg st item (.value v)) item).state with setThrows := false }
      (getSnapshot cfg (setState cfg st item (.value v)) item).item
      (.value w)).inMemoryData =
      aerase (getSnapshot cfg (setState cfg st item (.value v)) item).state.inMemoryData
        cfg.key := by
    unfold setState
    simp [hw]
  refine ⟨hmemB, hr.1, ?_, ?_, ?_, ?_⟩
  · simp [isPersistent, hmemB, hr.1, hv]
  · rw [hC]; exact alookup_aerase_self _ _
  · simp [isPersistent, hC, alookup_aerase_self]
  · simp [isPersistent, Bool.or_eq_true, Bool.not_eq_true', decide_eq_true_eq]

/-- Witness for C3: `setValue("v")` under a throwing `setItem` leaves `"v"` in
the fallback, reads back `"v"`, turns `isPersistent` false, and a later
successful `setValue("w")` clears the fallback and restores `isPersistent`. -/
theorem fallback_on_write_failure_witness :
    stThrow.setThrows = true ∧ (some "v" : Option String) ≠ cfgD.defaultValue ∧
    cfgD.stringify (some "w") = .ok "Sw" ∧
    (alookup c3stB.inMemoryData cfgD.key = some (some "v") ∧
     c3read.value = some "v" ∧
     isPersistent c3read.value cfgD c3stB = false ∧
     alookup c3stC.inMemoryData cfgD.key = none ∧
     isPersistent none cfgD c3stC = true ∧
     (isPersistent none cfgD st0 = true ↔
       ((none : Option String) = cfgD.defaultValue ∨
        (alookup st0.inMemoryData cfgD.key).isSome = false))) :=
  ⟨rfl, by decide, rfl,
   fallback_on_write_failure cfgD stThrow (freshItem String) (some "v") (some "w") "Sw"
     none st0 rfl (by decide) rfl⟩

/-- C4 (counterexample): the claim "for every value `v` serializable by the
configured serializer, `setValue(v)` followed by a read yields `v`" is false.
In this trace the serializer round-trips `"v"` (conjuncts 1–2), `setValue("v")`
succeeded and the store holds its serialization (conjunct 3), yet the same
cell's next read returns the stale `"w"` cached from an earlier fallback,
because the raw string in the store did not change. -/
theorem write_read_roundtrip_cex :
    cfgNone.stringify (some "v") = .ok "Sv" ∧
    cfgNone.parse "Sv" = .ok (some "v") ∧
    alookup c4st3.store "k" = some "Sv" ∧
    c4read3.value = some "w" ∧
    ¬ c4read3.value = some "v" :=
  ⟨rfl, rfl, by decide, by decide, by decide⟩

/-- C4 (amended): `setValue(v)` followed by a read of the same cell yields `v`
whenever the serializer round-trips `v`, storage works, and either the cell's
cached raw string differs from the new serialization of `v` or its cached
parsed value already equals `v` (the exception being a cell whose cache was
poisoned by an in-memory fallback under an unchanged raw string). -/
theorem write_read_roundtrip_amended {α : Type} (cfg : Config α) (st : ProcState α)
    (item : StorageItem α) (v : Option α) (s : String)
    (hstr : cfg.stringify v = .ok s) (hparse : cfg.parse s = .ok v)
    (hset : st.setThrows = false) (hget : st.getThrows = false)
    (hcell : item.string ≠ some s ∨ item.parsed = v) :
    (getSnapshot cfg (setState cfg st item (.value v)) item).value = v := by
  have h1 : setState cfg st item (.value v) =
      { st with store := ainsert st.store cfg.key s,
                inMemoryData := aerase st.inMemoryData cfg.key } := by
    unfold setState
    simp [hstr, hset]
  rw [h1]
  unfold getSnapshot
  have hsg : sget ({ st with store := ainsert st.store cfg.key s,
                             inMemoryData := aerase st.inMemoryData cfg.key }) cfg.key
      = some s := by
    simp [sget, hget, alookup_ainsert_self]
  simp only [hsg, alookup_aerase_self]
  rcases hcell with h | h
  · simp [Ne.symm h, hparse]
  · by_cases h2 : (some s : Option String) = item.string
    · simp [← h2, h]
    · simp [h2, hparse]

/-- Witness for the amended C4: a fresh cell, `setValue("v")`, read yields `"v"`. -/
theorem write_read_roundtrip_amended_witness :
    cfgNone.stringify (some "v") = .ok "Sv" ∧ cfgNone.parse "Sv" = .ok (some "v") ∧
    st0.setThrows = false ∧ st0.getThrows = false ∧
    ((freshItem String).string ≠ some "Sv" ∨ (freshItem String).parsed = some "v") ∧
    (getSnapshot cfgNone (setState cfgNone st0 (freshItem String) (.value (some "v")))
      (freshItem String)).value = some "v" :=
  ⟨rfl, rfl, rfl, rfl, Or.inl (by decide),
   write_read_roundtrip_amended cfgNone st0 (freshItem String) (some "v") "Sv"
     rfl rfl rfl rfl (Or.inl (by decide))⟩

/-- C5: a publish for a key invokes every callback that was registered before the
publish began exactly once, even when callbacks invoked during the broadcast add
or remove subscriptions, because `triggerCallbacks` iterates over the spread
snapshot `[...callbacks]` taken at publish time: the invocation trace equals the
registry as it was when the publish began, so (the registry being a `Set`,
hence duplicate-free) each pre-registered callback is invoked exactly once. -/
theorem publish_snapshot_exactly_once (effect : Nat → List Nat → List Nat)
    (reg : List Nat) (c : Nat) (hnd : reg.Nodup) (hc : c ∈ reg) :
    (triggerCallbacks effect reg).2 = reg ∧ (triggerCallbacks effect reg).2.count c = 1 := by
  have ht : (triggerCallbacks effect reg).2 = reg := broadcastAux_trace effect reg reg
  exact ⟨ht, by rw [ht]; exact List.count_eq_one_of_mem hnd hc⟩

/-- Witness for C5: publishing over the registry `[1, 2, 3]` with callbacks that
add and remove subscriptions mid-broadcast still invokes callback `2` exactly once. -/
theorem publish_snapshot_exactly_once_witness :
    ([1, 2, 3] : List Nat).Nodup ∧ 2 ∈ ([1, 2, 3] : List Nat) ∧
    ((triggerCallbacks (fun c reg => setDelete (setAdd reg 99) c) [1, 2, 3]).2 = [1, 2, 3] ∧
     (triggerCallbacks (fun c reg => setDelete (setAdd reg 99) c) [1, 2, 3]).2.count 2 = 1) :=
  ⟨by decide, by decide,
   publish_snapshot_exactly_once (fun c reg => setDelete (setAdd reg 99) c) [1, 2, 3] 2
     (by decide) (by decide)⟩

/-- C6: if the store holds a string for the key that the configured parse
function cannot parse (it throws), a read by a freshly created cell yields the
default value and nothing else changes (the model's read is total — no error
reaches the caller — and the process state is returned untouched). -/
theorem parse_failure_yields_default {α : Type} (cfg : Config α) (st : ProcState α)
    (s : String)
    (hget : st.getThrows = false) (hs : alookup st.store cfg.key = some s)
    (hparse : cfg.parse s = .error ()) (hmem : alookup st.inMemoryData cfg.key = none) :
    (getSnapshot cfg st (freshItem α)).value = cfg.defaultValue ∧
    (getSnapshot cfg st (freshItem α)).state = st := by
  unfold getSnapshot
  simp [sget, hget, hs, hmem, freshItem, hparse]

/-- Witness for C6: the store holds the unparsable `"!!"` for `"k"`; a fresh
cell reads the default `"d"`. -/
theorem parse_failure_yields_default_witness :
    c6st.getThrows = false ∧ alookup c6st.store cfgD.key = some "!!" ∧
    cfgD.parse "!!" = .error () ∧ alookup c6st.inMemoryData cfgD.key = none ∧
    ((getSnapshot cfgD c6st (freshItem String)).value = cfgD.defaultValue ∧
     (getSnapshot cfgD c6st (freshItem String)).state = c6st) :=
  ⟨rfl, by decide, rfl, rfl,
   parse_failure_yields_default cfgD c6st "!!" rfl (by decide) rfl rfl⟩

/-- C7: the default serializer round-trips the value `undefined`: `parseJSON`
applied to the stored literal encoding of `undefined` returns the value
`undefined` (`Except.ok none`) — for every behaviour of the platform's general
`JSON.parse` decoder — and in particular never the plain string that the general
decoder would otherwise produce. -/
theorem parseJSON_roundtrips_undefined (jsonParse : String → Except Unit (Option JSVal)) :
    parseJSON jsonParse stringifiedUndefined = .ok none ∧
    ∀ s : String, parseJSON jsonParse stringifiedUndefined ≠ .ok (some (.str s)) := by
  constructor
  · simp [parseJSON, stringifiedUndefined]
  · intro s h
    simp [parseJSON, stringifiedUndefined] at h

/-- C8 (counterexample): the claim "when `stringify` throws, the resolved value
is placed in the fallback and a subsequent read of the same key returns that
exact value" is false in its last part: here `stringify` throws on `"v"`,
the fallback receives `"v"`, but the read returns the default `"d"`,
because the read's seeding step successfully wrote the serialized default and
overwrote the cached snapshot. -/
theorem stringify_throw_cex :
    cfgThrowV.stringify (some "v") = .error () ∧
    alookup c8st.inMemoryData "k" = some (some "v") ∧
    c8read.value = some "d" ∧
    ¬ c8read.value = some "v" :=
  ⟨rfl, by decide, by decide, by decide⟩

/-- C8 (amended): `setValue(v)` never raises even when `stringify` throws on the
resolved value (the model is total); the exact resolved value is placed
unserialized into the in-memory fallback, and the subsequent read of the same
key returns that exact value — unless that read observes no raw item while the
default value is defined, in which case a successful default-seeding write can
make the read return the default instead. -/
theorem stringify_throw_fallback_amended {α : Type} (cfg : Config α) (st : ProcState α)
    (item : StorageItem α) (v : Option α)
    (hstr : cfg.stringify v = .error ()) :
    alookup (setState cfg st item (.value v)).inMemoryData cfg.key = some v ∧
    ((getSnapshot cfg (setState cfg st item (.value v)) item).value = v ∨
     (sget st cfg.key = none ∧ cfg.defaultValue.isSome = true ∧
      (getSnapshot cfg (setState cfg st item (.value v)) item).value = cfg.defaultValue)) := by
  have h1 : setState cfg st item (.value v) =
      { st with inMemoryData := ainsert st.inMemoryData cfg.key v } := by
    unfold setState
    simp [hstr]
  have hmem : alookup (setState cfg st item (.value v)).inMemoryData cfg.key = some v := by
    rw [h1]; exact alookup_ainsert_self _ _ _
  refine ⟨hmem, ?_⟩
  have hd := getSnapshot_mem_any cfg (setState cfg st item (.value v)) item v hmem
  rcases hd with h | ⟨ha, hb, hc⟩
  · exact Or.inl h
  · refine Or.inr ⟨?_, hb, hc⟩
    rw [h1] at ha
    exact ha

/-- Witness for the amended C8: with the `"v"`-rejecting encoder, the fallback
receives exactly `"v"`, and the read lands in the (here: seeding) disjunct. -/
theorem stringify_throw_fallback_amended_witness :
    cfgThrowV.stringify (some "v") = .error () ∧
    (alookup (setState cfgThrowV st0 (freshItem String) (.value (some "v"))).inMemoryData
        cfgThrowV.key = some (some "v") ∧
     ((getSnapshot cfgThrowV (setState cfgThrowV st0 (freshItem String) (.value (some "v")))
         (freshItem String)).value = some "v" ∨
      (sget st0 cfgThrowV.key = none ∧ cfgThrowV.defaultValue.isSome = true ∧
       (getSnapshot cfgThrowV (setState cfgThrowV st0 (freshItem String) (.value (some "v")))
         (freshItem String)).value = cfgThrowV.defaultValue))) :=
  ⟨rfl, stringify_throw_fallback_amended cfgThrowV st0 (freshItem String) (some "v") rfl⟩

/-- C9: the unsubscribe closure returned by the subscribe function
(`() => { callbacks.delete(onChange) }`) is idempotent: invoking it a second
time is a silent no-op leaving the registry unchanged, and it never removes any
other subscriber's callback. -/
theorem unsubscribe_idempotent (reg : List Nat) (c d : Nat) (hnd : reg.Nodup)
    (hd : d ≠ c) :
    setDelete (setDelete reg c) c = setDelete reg c ∧
    (d ∈ setDelete reg c ↔ d ∈ reg) := by
  constructor
  · exact List.erase_of_not_mem hnd.not_mem_erase
  · rw [setDelete, hnd.mem_erase_iff]
    simp [hd]

/-- Witness for C9: unsubscribing callback `5` twice from the registry `[5, 7]`
equals unsubscribing it once, and callback `7` stays registered. -/
theorem unsubscribe_idempotent_witness :
    ([5, 7] : List Nat).Nodup ∧ (7 : Nat) ≠ 5 ∧
    (setDelete (setDelete [5, 7] 5) 5 = setDelete [5, 7] 5 ∧
     (7 ∈ setDelete [5, 7] 5 ↔ 7 ∈ ([5, 7] : List Nat))) :=
  ⟨by decide, by decide, unsubscribe_idempotent [5, 7] 5 7 (by decide) (by decide)⟩

/-- C10: broadcasting a change for key `k` never delivers a store-change
invalidation to a cell subscribed under a different key: every registered
callback is invoked (the trace contains exactly the registered callbacks), but a
callback's `onChange` forwards the invalidation to its cell only when the key it
captured equals the published key. -/
theorem publish_filters_by_key (effect : Nat → List Nat → List Nat)
    (keyOf : Nat → String) (reg : List Nat) (k : String) (c : Nat) :
    (c ∈ (triggerCallbacks effect reg).2 ↔ c ∈ reg) ∧
    (c ∈ invalidatedCells keyOf k (triggerCallbacks effect reg).2 ↔
      c ∈ reg ∧ keyOf c = k) := by
  have ht : (triggerCallbacks effect reg).2 = reg := broadcastAux_trace effect reg reg
  rw [ht]
  exact ⟨Iff.rfl, by simp [invalidatedCells, onChange, List.mem_filter]⟩

end UseSessionStorage
